import Mathlib

/-!
Shallow embedding of `main.py` of the auto-swiper repository.

The script is a single linear GUI-automation loop.  External effects
(template matching on the screen, file system contents, the random number
generator, keyboard interrupts) are modelled as explicit inputs; the three
global counters (`counter`, `imgCounter`, `skipCounter`) are Python
integers, modelled as `ℤ`; every observable action of an iteration is
recorded in an event trace.
-/

namespace AutoSwiper

/-- The three global counters of `main.py` (lines 34-37). Python integers. -/
structure SwiperState where
  counter : ℤ
  imgCounter : ℤ
  skipCounter : ℤ
deriving DecidableEq

/-- All counters start at 0. -/
def initialState : SwiperState := ⟨0, 0, 0⟩

/-- Outcome of the external world for one `clickFromLocation` call:
the image file is missing (`os.path.exists` is false), the
locate-and-click path raises (`locateCenterOnScreen`/`click`), or the
template is found and clicked. -/
inductive ClickOutcome
  | fileMissing
  | raises
  | success
deriving DecidableEq

/-- The four bundled template images (lines 29-32). -/
inductive Img
  | roseCheck
  | heart
  | comment
  | like
deriving DecidableEq

/-- `clickFromLocation` (lines 105-125): on the file-missing path
`skipCounter += 1; return`; when the locate/click raises, the
`except Exception` arm does `skipCounter += 1`; on success
`imgCounter += 1`.  All paths return normally. -/
def clickFromLocation (o : ClickOutcome) (s : SwiperState) : SwiperState :=
  match o with
  | .fileMissing => { s with skipCounter := s.skipCounter + 1 }
  | .raises => { s with skipCounter := s.skipCounter + 1 }
  | .success => { s with imgCounter := s.imgCounter + 1 }

/-- Observable actions issued by `sequence` (lines 254-275). -/
inductive Event
  | moveDefault
  | clickAttempt (img : Img)
  | waitE (secs : Nat)
  | typed (msg : String)
deriving DecidableEq

/-- `defaultWaitTimeSecs = 3` (line 94). -/
def defaultWaitTimeSecs : Nat := 3

/-- `clickFromLocation` as a state transformer together with the event it
contributes to the iteration trace. -/
def clickFromLocationT (img : Img) (o : ClickOutcome) (s : SwiperState) :
    SwiperState × List Event :=
  (clickFromLocation o s, [Event.clickAttempt img])

/-- Index drawn by `random.choice` on a list of length `n`: a uniform
draw `r` reduced into `[0, n)`. -/
def chooseIndex (n r : Nat) : Nat := r % n

/-- `randomPunGenerator` (lines 251-252):
`random.choice(jokes) if jokes else "No jokes available"`. -/
def randomPunGenerator (jokes : List String) (r : Nat) : String :=
  if jokes.isEmpty then "No jokes available"
  else jokes.getD (chooseIndex jokes.length r) ""

/-- `sequence` (lines 254-275): `defaultLoc()`, click the heart image,
wait, click the comment image, wait, type a random message, wait, click
the like image, wait.  `r` is the randomness consumed by
`randomPunGenerator`; `o1 o2 o3` are the outcomes of the three clicks. -/
def sequence (jokes : List String) (r : Nat) (o1 o2 o3 : ClickOutcome)
    (s : SwiperState) : SwiperState × List Event :=
  let e0 := [Event.moveDefault]
  let p1 := clickFromLocationT .heart o1 s
  let p2 := clickFromLocationT .comment o2 p1.1
  let msg := randomPunGenerator jokes r
  let p3 := clickFromLocationT .like o3 p2.1
  (p3.1,
    e0 ++ p1.2 ++ [Event.waitE defaultWaitTimeSecs]
       ++ p2.2 ++ [Event.waitE defaultWaitTimeSecs]
       ++ [Event.typed msg] ++ [Event.waitE defaultWaitTimeSecs]
       ++ p3.2 ++ [Event.waitE defaultWaitTimeSecs])

/-- The fixed event list of one completed `sequence` call typing `msg`. -/
def canonicalTrace (msg : String) : List Event :=
  [Event.moveDefault,
   Event.clickAttempt .heart, Event.waitE defaultWaitTimeSecs,
   Event.clickAttempt .comment, Event.waitE defaultWaitTimeSecs,
   Event.typed msg, Event.waitE defaultWaitTimeSecs,
   Event.clickAttempt .like, Event.waitE defaultWaitTimeSecs]

/-- The statistics produced by one `logAll` call (lines 277-305): the
table values (`total`, `success_rate`, `skip_rate`) and the three log-file
lines (`printSkip`, `printComplete`, `printTotal`), each computed exactly
as in the source. -/
structure StatsReport where
  total : ℤ
  successRate : ℚ
  skipRate : ℚ
  printSkip : ℤ
  printComplete : ℤ
  printTotal : ℤ
deriving DecidableEq

/-- `logAll` (lines 277-305).  It only reads the counters; the rates use
`if total > 0 else 0`, and the log line recomputes
`imgCounter + skipCounter`. -/
def logAll (s : SwiperState) : StatsReport :=
  let total := s.imgCounter + s.skipCounter
  { total := total
    successRate := if 0 < total then (s.imgCounter : ℚ) / (total : ℚ) * 100 else 0
    skipRate := if 0 < total then (s.skipCounter : ℚ) / (total : ℚ) * 100 else 0
    printSkip := s.skipCounter
    printComplete := s.imgCounter
    printTotal := s.imgCounter + s.skipCounter }

/-- Mode of an `open` call; `logAll` uses `open("log.txt", "a")`. -/
inductive FileMode
  | read
  | write
  | append
deriving DecidableEq

/-- What the external world does during one loop-body execution
(after `counter += 1`): the body runs to completion (`sequence` performs
its three clicks with outcomes `o1 o2 o3`, randomness `r`); a
`KeyboardInterrupt` strikes after `os` of the clicks have happened
(`clickFromLocation` catches only `Exception`, so the interrupt
propagates); or some other uncaught exception strikes after `os` clicks. -/
inductive IterEvent
  | completed (o1 o2 o3 : ClickOutcome) (r : Nat)
  | interrupted (os : List ClickOutcome)
  | raisedOther (os : List ClickOutcome)
deriving DecidableEq

/-- Whether the loop body ran to completion. -/
def IterEvent.isCompleted : IterEvent → Bool
  | .completed _ _ _ _ => true
  | _ => false

/-- Whether the body raised something other than `KeyboardInterrupt`. -/
def IterEvent.isRaised : IterEvent → Bool
  | .raisedOther _ => true
  | _ => false

/-- Apply a list of click outcomes in order. -/
def applyClicks (os : List ClickOutcome) (s : SwiperState) : SwiperState :=
  os.foldl (fun t o => clickFromLocation o t) s

/-- Session-level observable events of `looper` (lines 310-365). -/
inductive SessionEvent
  | iterStart (k : ℤ)
  | seqRun (t : List Event)
  | interruptCaught
  | logOpen (m : FileMode)
deriving DecidableEq

/-- Result of running the `while` loop of `looper`: final counters, the
session trace, and whether an uncaught exception escaped the loop. -/
structure LoopOut where
  state : SwiperState
  trace : List SessionEvent
  crashed : Bool
deriving DecidableEq

/-- The `while counter < 200` loop of `looper` (lines 331-353), run with
`fuel` as an upper bound on the number of unfoldings.  Each iteration:
`counter += 1`, then the body, then — in the `finally` clause, on every
path — `logAll` opens the log file in append mode.  A
`KeyboardInterrupt` is caught (`except KeyboardInterrupt: break`); any
other exception escapes the loop after the `finally` ran. -/
def looperAux (jokes : List String) (env : ℤ → IterEvent) :
    Nat → SwiperState → LoopOut
  | 0, s => ⟨s, [], false⟩
  | fuel + 1, s =>
    if s.counter < 200 then
      let c := s.counter + 1
      let s1 : SwiperState := { s with counter := c }
      match env c with
      | .completed o1 o2 o3 r =>
        let p := sequence jokes r o1 o2 o3 s1
        let rest := looperAux jokes env fuel p.1
        ⟨rest.state,
          SessionEvent.iterStart c :: SessionEvent.seqRun p.2 ::
            SessionEvent.logOpen FileMode.append :: rest.trace,
          rest.crashed⟩
      | .interrupted os =>
        ⟨applyClicks os s1,
          [SessionEvent.iterStart c, SessionEvent.interruptCaught,
            SessionEvent.logOpen FileMode.append],
          false⟩
      | .raisedOther os =>
        ⟨applyClicks os s1,
          [SessionEvent.iterStart c, SessionEvent.logOpen FileMode.append],
          true⟩
    else
      ⟨s, [], false⟩

/-- The final-summary panel of `looper` (lines 356-365). -/
structure Summary where
  totalAttempted : ℤ
  successful : ℤ
  skipped : ℤ
deriving DecidableEq

/-- `looper`: run the main loop from the initial counters; the final
summary is printed only when no exception escaped the loop. -/
def looper (jokes : List String) (env : ℤ → IterEvent) (fuel : Nat) :
    LoopOut × Option Summary :=
  let out := looperAux jokes env fuel initialState
  (out,
    if out.crashed then none
    else some ⟨out.state.counter, out.state.imgCounter, out.state.skipCounter⟩)

/-- Number of iterations started (one `iterStart` is emitted right after
each `counter += 1`). -/
def countIter (tr : List SessionEvent) : Nat :=
  tr.countP fun e => match e with | .iterStart _ => true | _ => false

/-- Number of completed `sequence` runs in a session trace. -/
def countSeq (tr : List SessionEvent) : Nat :=
  tr.countP fun e => match e with | .seqRun _ => true | _ => false

/-- Number of times the log file was opened. -/
def countLog (tr : List SessionEvent) : Nat :=
  tr.countP fun e => match e with | .logOpen _ => true | _ => false

/-- Every open of the log file in the trace is in append mode. -/
def logOpensAppendOnly (tr : List SessionEvent) : Bool :=
  tr.all fun e => match e with | .logOpen m => m == FileMode.append | _ => true

/-- Result of trying to read a text file: it does not exist, reading it
raises, or it yields a list of lines (`read().splitlines()`). -/
inductive FileRead
  | missing
  | readError
  | ok (lines : List String)
deriving DecidableEq

/-- File-system contents seen by `loadJokes`: the user custom-jokes file
(`~/Documents/AutoSwiper_CustomJokes.txt`) and the bundled `jokes.txt`. -/
structure JokesEnv where
  user : FileRead
  bundled : FileRead
deriving DecidableEq

/-- The characters removed by Python `str.strip()` with no argument. -/
def pyWhitespace (c : Char) : Bool :=
  c = ' ' || c = '\t' || c = '\n' || c = '\r' || c = '\x0b' || c = '\x0c'

/-- Strip `pyWhitespace` characters from both ends of a character list. -/
def charStrip (l : List Char) : List Char :=
  ((l.dropWhile pyWhitespace).reverse.dropWhile pyWhitespace).reverse

/-- Python `str.strip()`. -/
def pyStrip (s : String) : String := ⟨charStrip s.data⟩

/-- The comprehension of lines 200-201: strip each user line, keep those
that are non-empty and do not start with `#`. -/
def userFilteredJokes (lines : List String) : List String :=
  (lines.map pyStrip).filter fun l => !l.isEmpty && !l.startsWith "#"

/-- The comprehension of line 214: strip each bundled line, keep the
non-empty ones (comments are NOT filtered here). -/
def bundledFilteredJokes (lines : List String) : List String :=
  (lines.map pyStrip).filter fun l => !l.isEmpty

/-- Jokes contributed by the user custom-jokes file (lines 195-207):
nothing when the file is missing or unreadable. -/
def userJokesOf (env : JokesEnv) : List String :=
  match env.user with
  | .ok lines => userFilteredJokes lines
  | _ => []

/-- Jokes contributed by the bundled `jokes.txt` (lines 210-218). -/
def defaultJokesOf (env : JokesEnv) : List String :=
  match env.bundled with
  | .ok lines => bundledFilteredJokes lines
  | _ => []

/-- The hard-coded fallback list of line 226. -/
def fallbackJokes : List String :=
  ["Hey there! 😊", "You seem interesting!", "Coffee sometime?"]

/-- `loadJokes` (lines 187-230): user jokes are added when present
(`if user_jokes: jokes.extend(user_jokes)`), bundled jokes are always
appended, and the fallback list is used when nothing was loaded. -/
def loadJokes (env : JokesEnv) : List String :=
  let userJokes := userJokesOf env
  let jokes := if userJokes.isEmpty then [] else userJokes
  let jokes2 := jokes ++ defaultJokesOf env
  if jokes2.isEmpty then fallbackJokes else jokes2

/-- A world in which iteration 1 completes (all templates found) and a
`KeyboardInterrupt` strikes at the start of iteration 2. -/
def oneIterThenInterruptEnv : ℤ → IterEvent := fun c =>
  if c = 1 then .completed .success .success .success 0 else .interrupted []

/-- A world in which every iteration completes with every template
found. -/
def allSuccessEnv : ℤ → IterEvent := fun _ =>
  .completed .success .success .success 0

/-! ### Helper lemmas about the click primitives -/

theorem clickFromLocation_counter (o : ClickOutcome) (s : SwiperState) :
    (clickFromLocation o s).counter = s.counter := by
  cases o <;> rfl

theorem clickFromLocation_monotone (o : ClickOutcome) (s : SwiperState) :
    s.imgCounter ≤ (clickFromLocation o s).imgCounter ∧
    s.skipCounter ≤ (clickFromLocation o s).skipCounter := by
  cases o <;> constructor <;> simp [clickFromLocation]

theorem clickFromLocation_sum (o : ClickOutcome) (s : SwiperState) :
    (clickFromLocation o s).imgCounter + (clickFromLocation o s).skipCounter
      = s.imgCounter + s.skipCounter + 1 := by
  cases o <;> simp [clickFromLocation] <;> ring

theorem applyClicks_counter (os : List ClickOutcome) :
    ∀ s : SwiperState, (applyClicks os s).counter = s.counter := by
  induction os with
  | nil => intro s; rfl
  | cons o t ih =>
    intro s
    show (applyClicks t (clickFromLocation o s)).counter = s.counter
    rw [ih, clickFromLocation_counter]

theorem applyClicks_monotone (os : List ClickOutcome) :
    ∀ s : SwiperState,
      s.imgCounter ≤ (applyClicks os s).imgCounter ∧
      s.skipCounter ≤ (applyClicks os s).skipCounter := by
  induction os with
  | nil => intro s; exact ⟨le_refl _, le_refl _⟩
  | cons o t ih =>
    intro s
    have h1 := clickFromLocation_monotone o s
    have h2 := ih (clickFromLocation o s)
    exact ⟨le_trans h1.1 h2.1, le_trans h1.2 h2.2⟩

theorem sequence_fst (jokes : List String) (r : Nat) (o1 o2 o3 : ClickOutcome)
    (s : SwiperState) :
    (sequence jokes r o1 o2 o3 s).1
      = clickFromLocation o3 (clickFromLocation o2 (clickFromLocation o1 s)) := rfl

theorem sequence_counter (jokes : List String) (r : Nat) (o1 o2 o3 : ClickOutcome)
    (s : SwiperState) :
    (sequence jokes r o1 o2 o3 s).1.counter = s.counter := by
  rw [sequence_fst, clickFromLocation_counter, clickFromLocation_counter,
    clickFromLocation_counter]

theorem sequence_monotone (jokes : List String) (r : Nat) (o1 o2 o3 : ClickOutcome)
    (s : SwiperState) :
    s.imgCounter ≤ (sequence jokes r o1 o2 o3 s).1.imgCounter ∧
    s.skipCounter ≤ (sequence jokes r o1 o2 o3 s).1.skipCounter := by
  rw [sequence_fst]
  have h1 := clickFromLocation_monotone o1 s
  have h2 := clickFromLocation_monotone o2 (clickFromLocation o1 s)
  have h3 := clickFromLocation_monotone o3 (clickFromLocation o2 (clickFromLocation o1 s))
  exact ⟨le_trans h1.1 (le_trans h2.1 h3.1), le_trans h1.2 (le_trans h2.2 h3.2)⟩

theorem sequence_sum (jokes : List String) (r : Nat) (o1 o2 o3 : ClickOutcome)
    (s : SwiperState) :
    (sequence jokes r o1 o2 o3 s).1.imgCounter
      + (sequence jokes r o1 o2 o3 s).1.skipCounter
      = s.imgCounter + s.skipCounter + 3 := by
  rw [sequence_fst]
  have h1 := clickFromLocation_sum o1 s
  have h2 := clickFromLocation_sum o2 (clickFromLocation o1 s)
  have h3 := clickFromLocation_sum o3 (clickFromLocation o2 (clickFromLocation o1 s))
  omega

theorem sequence_trace (jokes : List String) (r : Nat) (o1 o2 o3 : ClickOutcome)
    (s : SwiperState) :
    (sequence jokes r o1 o2 o3 s).2 = canonicalTrace (randomPunGenerator jokes r) := rfl

/-! ### Unfolding lemmas for the main loop -/

theorem looperAux_zero (jokes : List String) (env : ℤ → IterEvent) (s : SwiperState) :
    looperAux jokes env 0 s = ⟨s, [], false⟩ := rfl

theorem looperAux_guard (jokes : List String) (env : ℤ → IterEvent) (f : Nat)
    (s : SwiperState) (h : ¬ s.counter < 200) :
    looperAux jokes env (f + 1) s = ⟨s, [], false⟩ := by
  simp only [looperAux, if_neg h]

theorem looperAux_completed (jokes : List String) (env : ℤ → IterEvent) (f : Nat)
    (s : SwiperState) (o1 o2 o3 : ClickOutcome) (r : Nat)
    (h : s.counter < 200) (henv : env (s.counter + 1) = .completed o1 o2 o3 r) :
    looperAux jokes env (f + 1) s =
      ⟨(looperAux jokes env f
          (sequence jokes r o1 o2 o3 { s with counter := s.counter + 1 }).1).state,
        SessionEvent.iterStart (s.counter + 1) ::
          SessionEvent.seqRun
            (sequence jokes r o1 o2 o3 { s with counter := s.counter + 1 }).2 ::
          SessionEvent.logOpen FileMode.append ::
          (looperAux jokes env f
            (sequence jokes r o1 o2 o3 { s with counter := s.counter + 1 }).1).trace,
        (looperAux jokes env f
          (sequence jokes r o1 o2 o3 { s with counter := s.counter + 1 }).1).crashed⟩ := by
  simp only [looperAux, if_pos h, henv]

theorem looperAux_interrupted (jokes : List String) (env : ℤ → IterEvent) (f : Nat)
    (s : SwiperState) (os : List ClickOutcome)
    (h : s.counter < 200) (henv : env (s.counter + 1) = .interrupted os) :
    looperAux jokes env (f + 1) s =
      ⟨applyClicks os { s with counter := s.counter + 1 },
        [SessionEvent.iterStart (s.counter + 1), SessionEvent.interruptCaught,
          SessionEvent.logOpen FileMode.append],
        false⟩ := by
  simp only [looperAux, if_pos h, henv]

theorem looperAux_raised (jokes : List String) (env : ℤ → IterEvent) (f : Nat)
    (s : SwiperState) (os : List ClickOutcome)
    (h : s.counter < 200) (henv : env (s.counter + 1) = .raisedOther os) :
    looperAux jokes env (f + 1) s =
      ⟨applyClicks os { s with counter := s.counter + 1 },
        [SessionEvent.iterStart (s.counter + 1), SessionEvent.logOpen FileMode.append],
        true⟩ := by
  simp only [looperAux, if_pos h, henv]


/-! ### Counting lemmas for the main loop -/

theorem IterEvent.isCompleted_elim {e : IterEvent} (h : e.isCompleted = true) :
    ∃ o1 o2 o3 r, e = .completed o1 o2 o3 r := by
  cases e with
  | completed o1 o2 o3 r => exact ⟨o1, o2, o3, r, rfl⟩
  | interrupted os => simp [IterEvent.isCompleted] at h
  | raisedOther os => simp [IterEvent.isCompleted] at h

theorem countIter_nil : countIter [] = 0 := rfl

theorem countIter_cons_start (k : ℤ) (tr : List SessionEvent) :
    countIter (SessionEvent.iterStart k :: tr) = countIter tr + 1 := by
  simp [countIter, List.countP_cons]

theorem countIter_cons_seq (t : List Event) (tr : List SessionEvent) :
    countIter (SessionEvent.seqRun t :: tr) = countIter tr := by
  simp [countIter, List.countP_cons]

theorem countIter_cons_int (tr : List SessionEvent) :
    countIter (SessionEvent.interruptCaught :: tr) = countIter tr := by
  simp [countIter, List.countP_cons]

theorem countIter_cons_log (m : FileMode) (tr : List SessionEvent) :
    countIter (SessionEvent.logOpen m :: tr) = countIter tr := by
  simp [countIter, List.countP_cons]

theorem countSeq_nil : countSeq [] = 0 := rfl

theorem countSeq_cons_start (k : ℤ) (tr : List SessionEvent) :
    countSeq (SessionEvent.iterStart k :: tr) = countSeq tr := by
  simp [countSeq, List.countP_cons]

theorem countSeq_cons_seq (t : List Event) (tr : List SessionEvent) :
    countSeq (SessionEvent.seqRun t :: tr) = countSeq tr + 1 := by
  simp [countSeq, List.countP_cons]

theorem countSeq_cons_int (tr : List SessionEvent) :
    countSeq (SessionEvent.interruptCaught :: tr) = countSeq tr := by
  simp [countSeq, List.countP_cons]

theorem countSeq_cons_log (m : FileMode) (tr : List SessionEvent) :
    countSeq (SessionEvent.logOpen m :: tr) = countSeq tr := by
  simp [countSeq, List.countP_cons]

theorem countLog_nil : countLog [] = 0 := rfl

theorem countLog_cons_start (k : ℤ) (tr : List SessionEvent) :
    countLog (SessionEvent.iterStart k :: tr) = countLog tr := by
  simp [countLog, List.countP_cons]

theorem countLog_cons_seq (t : List Event) (tr : List SessionEvent) :
    countLog (SessionEvent.seqRun t :: tr) = countLog tr := by
  simp [countLog, List.countP_cons]

theorem countLog_cons_int (tr : List SessionEvent) :
    countLog (SessionEvent.interruptCaught :: tr) = countLog tr := by
  simp [countLog, List.countP_cons]

theorem countLog_cons_log (m : FileMode) (tr : List SessionEvent) :
    countLog (SessionEvent.logOpen m :: tr) = countLog tr + 1 := by
  simp [countLog, List.countP_cons]

theorem looperAux_log_eq_iter (jokes : List String) (env : ℤ → IterEvent) :
    ∀ (fuel : Nat) (s : SwiperState),
      countLog (looperAux jokes env fuel s).trace
        = countIter (looperAux jokes env fuel s).trace := by
  intro fuel
  induction fuel with
  | zero => intro s; rfl
  | succ f ih =>
    intro s
    by_cases h : s.counter < 200
    · cases henv : env (s.counter + 1) with
      | completed o1 o2 o3 r =>
        rw [looperAux_completed jokes env f s o1 o2 o3 r h henv]
        simp only [countLog_cons_start, countLog_cons_seq, countLog_cons_log,
          countIter_cons_start, countIter_cons_seq, countIter_cons_log]
        have := ih (sequence jokes r o1 o2 o3 { s with counter := s.counter + 1 }).1
        omega
      | interrupted os =>
        rw [looperAux_interrupted jokes env f s os h henv]
        rfl
      | raisedOther os =>
        rw [looperAux_raised jokes env f s os h henv]
        rfl
    · rw [looperAux_guard jokes env f s h]
      rfl

theorem looperAux_append_only (jokes : List String) (env : ℤ → IterEvent) :
    ∀ (fuel : Nat) (s : SwiperState),
      logOpensAppendOnly (looperAux jokes env fuel s).trace = true := by
  intro fuel
  induction fuel with
  | zero => intro s; rfl
  | succ f ih =>
    intro s
    by_cases h : s.counter < 200
    · cases henv : env (s.counter + 1) with
      | completed o1 o2 o3 r =>
        rw [looperAux_completed jokes env f s o1 o2 o3 r h henv]
        have hrest := ih (sequence jokes r o1 o2 o3 { s with counter := s.counter + 1 }).1
        simp only [logOpensAppendOnly, List.all_cons] at hrest ⊢
        simp [hrest]
      | interrupted os =>
        rw [looperAux_interrupted jokes env f s os h henv]
        rfl
      | raisedOther os =>
        rw [looperAux_raised jokes env f s os h henv]
        rfl
    · rw [looperAux_guard jokes env f s h]
      rfl

theorem looperAux_seq_canonical (jokes : List String) (env : ℤ → IterEvent) :
    ∀ (fuel : Nat) (s : SwiperState) (t : List Event),
      SessionEvent.seqRun t ∈ (looperAux jokes env fuel s).trace →
      ∃ msg, t = canonicalTrace msg := by
  intro fuel
  induction fuel with
  | zero => intro s t ht; simp [looperAux_zero] at ht
  | succ f ih =>
    intro s t ht
    by_cases h : s.counter < 200
    · cases henv : env (s.counter + 1) with
      | completed o1 o2 o3 r =>
        rw [looperAux_completed jokes env f s o1 o2 o3 r h henv] at ht
        rcases List.mem_cons.mp ht with h1 | ht
        · exact absurd h1 (by simp)
        rcases List.mem_cons.mp ht with h1 | ht
        · refine ⟨randomPunGenerator jokes r, ?_⟩
          have hseq := sequence_trace jokes r o1 o2 o3 { s with counter := s.counter + 1 }
          injection h1 with h1
        rcases List.mem_cons.mp ht with h1 | ht
        · exact absurd h1 (by simp)
        · exact ih _ t ht
      | interrupted os =>
        rw [looperAux_interrupted jokes env f s os h henv] at ht
        simp at ht
      | raisedOther os =>
        rw [looperAux_raised jokes env f s os h henv] at ht
        simp at ht
    · rw [looperAux_guard jokes env f s h] at ht
      simp at ht

theorem looperAux_counter_eq (jokes : List String) (env : ℤ → IterEvent) :
    ∀ (fuel : Nat) (s : SwiperState),
      (looperAux jokes env fuel s).state.counter
        = s.counter + countIter (looperAux jokes env fuel s).trace := by
  intro fuel
  induction fuel with
  | zero => intro s; simp [looperAux_zero, countIter_nil]
  | succ f ih =>
    intro s
    by_cases h : s.counter < 200
    · cases henv : env (s.counter + 1) with
      | completed o1 o2 o3 r =>
        rw [looperAux_completed jokes env f s o1 o2 o3 r h henv]
        simp only [countIter_cons_start, countIter_cons_seq, countIter_cons_log]
        have h1 := ih (sequence jokes r o1 o2 o3 { s with counter := s.counter + 1 }).1
        have h2 : (sequence jokes r o1 o2 o3 { s with counter := s.counter + 1 }).1.counter
            = s.counter + 1 := sequence_counter jokes r o1 o2 o3 _
        rw [h2] at h1
        rw [h1]
        push_cast
        ring
      | interrupted os =>
        rw [looperAux_interrupted jokes env f s os h henv]
        rw [applyClicks_counter]
        simp only [countIter_cons_start, countIter_cons_int, countIter_cons_log,
          countIter_nil]
        push_cast
        ring
      | raisedOther os =>
        rw [looperAux_raised jokes env f s os h henv]
        rw [applyClicks_counter]
        simp only [countIter_cons_start, countIter_cons_log, countIter_nil]
        push_cast
        ring
    · rw [looperAux_guard jokes env f s h]
      simp [countIter_nil]

theorem looperAux_monotone (jokes : List String) (env : ℤ → IterEvent) :
    ∀ (fuel : Nat) (s : SwiperState),
      s.counter ≤ (looperAux jokes env fuel s).state.counter ∧
      s.imgCounter ≤ (looperAux jokes env fuel s).state.imgCounter ∧
      s.skipCounter ≤ (looperAux jokes env fuel s).state.skipCounter := by
  intro fuel
  induction fuel with
  | zero => intro s; exact ⟨le_refl _, le_refl _, le_refl _⟩
  | succ f ih =>
    intro s
    by_cases h : s.counter < 200
    · cases henv : env (s.counter + 1) with
      | completed o1 o2 o3 r =>
        rw [looperAux_completed jokes env f s o1 o2 o3 r h henv]
        have hmono := sequence_monotone jokes r o1 o2 o3 { s with counter := s.counter + 1 }
        have hc := sequence_counter jokes r o1 o2 o3 { s with counter := s.counter + 1 }
        have hrest := ih (sequence jokes r o1 o2 o3 { s with counter := s.counter + 1 }).1
        refine ⟨?_, ?_, ?_⟩
        · have h3 := hrest.1
          rw [hc] at h3
          simp only at h3 ⊢
          omega
        · exact le_trans hmono.1 hrest.2.1
        · exact le_trans hmono.2 hrest.2.2
      | interrupted os =>
        rw [looperAux_interrupted jokes env f s os h henv]
        have hmono := applyClicks_monotone os { s with counter := s.counter + 1 }
        have hc := applyClicks_counter os { s with counter := s.counter + 1 }
        exact ⟨by rw [hc]; simp, hmono.1, hmono.2⟩
      | raisedOther os =>
        rw [looperAux_raised jokes env f s os h henv]
        have hmono := applyClicks_monotone os { s with counter := s.counter + 1 }
        have hc := applyClicks_counter os { s with counter := s.counter + 1 }
        exact ⟨by rw [hc]; simp, hmono.1, hmono.2⟩
    · rw [looperAux_guard jokes env f s h]
      exact ⟨le_refl _, le_refl _, le_refl _⟩

theorem looperAux_countIter_le (jokes : List String) (env : ℤ → IterEvent) :
    ∀ (fuel : Nat) (s : SwiperState),
      countIter (looperAux jokes env fuel s).trace ≤ (200 - s.counter).toNat := by
  intro fuel
  induction fuel with
  | zero => intro s; simp [looperAux_zero, countIter_nil]
  | succ f ih =>
    intro s
    by_cases h : s.counter < 200
    · cases henv : env (s.counter + 1) with
      | completed o1 o2 o3 r =>
        rw [looperAux_completed jokes env f s o1 o2 o3 r h henv]
        simp only [countIter_cons_start, countIter_cons_seq, countIter_cons_log]
        have h1 := ih (sequence jokes r o1 o2 o3 { s with counter := s.counter + 1 }).1
        have h2 : (sequence jokes r o1 o2 o3 { s with counter := s.counter + 1 }).1.counter
            = s.counter + 1 := sequence_counter jokes r o1 o2 o3 _
        rw [h2] at h1
        omega
      | interrupted os =>
        rw [looperAux_interrupted jokes env f s os h henv]
        simp only [countIter_cons_start, countIter_cons_int, countIter_cons_log,
          countIter_nil]
        omega
      | raisedOther os =>
        rw [looperAux_raised jokes env f s os h henv]
        simp only [countIter_cons_start, countIter_cons_log, countIter_nil]
        omega
    · rw [looperAux_guard jokes env f s h]
      simp [countIter_nil]

theorem looperAux_all_completed (jokes : List String) (env : ℤ → IterEvent)
    (hall : ∀ c : ℤ, (env c).isCompleted = true) :
    ∀ (fuel : Nat) (s : SwiperState),
      s.counter ≤ 200 → (200 - s.counter).toNat ≤ fuel →
      countIter (looperAux jokes env fuel s).trace = (200 - s.counter).toNat := by
  intro fuel
  induction fuel with
  | zero =>
    intro s hle hf
    rw [looperAux_zero, countIter_nil]
    omega
  | succ f ih =>
    intro s hle hf
    by_cases h : s.counter < 200
    · obtain ⟨o1, o2, o3, r, henv⟩ := IterEvent.isCompleted_elim (hall (s.counter + 1))
      rw [looperAux_completed jokes env f s o1 o2 o3 r h henv]
      simp only [countIter_cons_start, countIter_cons_seq, countIter_cons_log]
      have h2 : (sequence jokes r o1 o2 o3 { s with counter := s.counter + 1 }).1.counter
          = s.counter + 1 := sequence_counter jokes r o1 o2 o3 _
      have h1 := ih (sequence jokes r o1 o2 o3 { s with counter := s.counter + 1 }).1
        (by rw [h2]; omega) (by rw [h2]; omega)
      rw [h2] at h1
      omega
    · rw [looperAux_guard jokes env f s h, countIter_nil]
      omega

theorem looperAux_stops (jokes : List String) (env : ℤ → IterEvent) :
    ∀ (k : Nat) (fuel : Nat) (s : SwiperState),
      (∀ j : Nat, 1 ≤ j → j ≤ k → (env (s.counter + j)).isCompleted = true) →
      (env (s.counter + k + 1)).isCompleted = false →
      s.counter + k + 1 ≤ 200 →
      k + 1 ≤ fuel →
      countIter (looperAux jokes env fuel s).trace = k + 1 ∧
      countSeq (looperAux jokes env fuel s).trace = k ∧
      (looperAux jokes env fuel s).crashed = (env (s.counter + k + 1)).isRaised ∧
      (looperAux jokes env fuel s).state.counter = s.counter + k + 1 := by
  intro k
  induction k with
  | zero =>
    intro fuel s hcomp hstop hle hf
    obtain ⟨f, rfl⟩ : ∃ f, fuel = f + 1 := ⟨fuel - 1, by omega⟩
    have h : s.counter < 200 := by push_cast at hle; omega
    have hz : s.counter + ((0 : Nat) : ℤ) + 1 = s.counter + 1 := by push_cast; ring
    have hstop1 : (env (s.counter + 1)).isCompleted = false := by rwa [hz] at hstop
    cases henv : env (s.counter + 1) with
    | completed o1 o2 o3 r =>
      rw [henv] at hstop1
      simp [IterEvent.isCompleted] at hstop1
    | interrupted os =>
      rw [looperAux_interrupted jokes env f s os h henv]
      refine ⟨rfl, rfl, ?_, ?_⟩
      · rw [hz, henv]
        rfl
      · rw [applyClicks_counter]
        push_cast
        ring
    | raisedOther os =>
      rw [looperAux_raised jokes env f s os h henv]
      refine ⟨rfl, rfl, ?_, ?_⟩
      · rw [hz, henv]
        rfl
      · rw [applyClicks_counter]
        push_cast
        ring
  | succ k ihk =>
    intro fuel s hcomp hstop hle hf
    obtain ⟨f, rfl⟩ : ∃ f, fuel = f + 1 := ⟨fuel - 1, by omega⟩
    have h : s.counter < 200 := by push_cast at hle; omega
    have h1c : (env (s.counter + 1)).isCompleted = true := by
      have h1 := hcomp 1 (by omega) (by omega)
      have h0 : s.counter + ((1 : Nat) : ℤ) = s.counter + 1 := by push_cast; ring
      rwa [h0] at h1
    obtain ⟨o1, o2, o3, r, henv⟩ := IterEvent.isCompleted_elim h1c
    rw [looperAux_completed jokes env f s o1 o2 o3 r h henv]
    set s2 := (sequence jokes r o1 o2 o3 { s with counter := s.counter + 1 }).1 with hs2
    have h2 : s2.counter = s.counter + 1 := sequence_counter jokes r o1 o2 o3 _
    have hcomp2 : ∀ j : Nat, 1 ≤ j → j ≤ k → (env (s2.counter + j)).isCompleted = true := by
      intro j hj1 hjk
      have hj := hcomp (j + 1) (by omega) (by omega)
      have harg : s.counter + ((j + 1 : Nat) : ℤ) = s2.counter + (j : ℤ) := by
        rw [h2]; push_cast; ring
      rwa [harg] at hj
    have hstop2 : (env (s2.counter + k + 1)).isCompleted = false := by
      have harg : s.counter + ((k + 1 : Nat) : ℤ) + 1 = s2.counter + (k : ℤ) + 1 := by
        rw [h2]; push_cast; ring
      rwa [harg] at hstop
    have hle2 : s2.counter + k + 1 ≤ 200 := by
      rw [h2]
      push_cast at hle ⊢
      omega
    have ih := ihk f s2 hcomp2 hstop2 hle2 (by omega)
    have harg2 : s2.counter + (k : ℤ) + 1 = s.counter + ((k + 1 : Nat) : ℤ) + 1 := by
      rw [h2]; push_cast; ring
    refine ⟨?_, ?_, ?_, ?_⟩
    · simp only [countIter_cons_start, countIter_cons_seq, countIter_cons_log]
      omega
    · simp only [countSeq_cons_start, countSeq_cons_seq, countSeq_cons_log]
      omega
    · have h3 := ih.2.2.1
      rw [harg2] at h3
      exact h3
    · have h3 := ih.2.2.2
      rw [harg2] at h3
      exact h3

/-! ### Lemmas about Python `strip` and `loadJokes` -/

theorem dropWhile_idem {α : Type} (p : α → Bool) (l : List α) :
    (l.dropWhile p).dropWhile p = l.dropWhile p := by
  induction l with
  | nil => rfl
  | cons h t ih =>
    by_cases hp : p h = true
    · simp [List.dropWhile_cons, hp, ih]
    · simp [List.dropWhile_cons, hp]

theorem dropWhile_append_single {α : Type} (p : α → Bool) (a : α) (ha : p a = false) :
    ∀ l : List α, List.dropWhile p (l ++ [a]) = List.dropWhile p l ++ [a] := by
  intro l
  induction l with
  | nil => simp [List.dropWhile_cons, ha]
  | cons h t ih =>
    by_cases hp : p h = true
    · simp [List.dropWhile_cons, hp, ih]
    · simp [List.dropWhile_cons, hp]

theorem charStrip_head_not_ws (l : List Char) :
    (charStrip l).dropWhile pyWhitespace = charStrip l := by
  have hfront : (l.dropWhile pyWhitespace).dropWhile pyWhitespace
      = l.dropWhile pyWhitespace := dropWhile_idem pyWhitespace l
  cases ha : l.dropWhile pyWhitespace with
  | nil => simp [charStrip, ha]
  | cons h t =>
    have hph : pyWhitespace h = false := by
      rw [ha] at hfront
      by_cases hp : pyWhitespace h = true
      · rw [List.dropWhile_cons, if_pos hp] at hfront
        have hlen := (@List.dropWhile_sublist Char t pyWhitespace).length_le
        rw [hfront] at hlen
        simp at hlen
      · simpa using hp
    have hsplit : charStrip l
        = h :: (List.dropWhile pyWhitespace t.reverse).reverse := by
      rw [charStrip, ha]
      rw [List.reverse_cons, dropWhile_append_single pyWhitespace h hph t.reverse]
      simp
    rw [hsplit, List.dropWhile_cons, if_neg (by simp [hph])]

theorem charStrip_last_not_ws (l : List Char) :
    (charStrip l).reverse.dropWhile pyWhitespace = (charStrip l).reverse := by
  rw [charStrip, List.reverse_reverse]
  exact dropWhile_idem pyWhitespace (l.dropWhile pyWhitespace).reverse

theorem charStrip_idem (l : List Char) : charStrip (charStrip l) = charStrip l := by
  conv_lhs => rw [charStrip]
  rw [charStrip_head_not_ws, charStrip_last_not_ws, List.reverse_reverse]

theorem pyStrip_idem (s : String) : pyStrip (pyStrip s) = pyStrip s := by
  show String.mk (charStrip (String.mk (charStrip s.data)).data) = String.mk (charStrip s.data)
  rw [show (String.mk (charStrip s.data)).data = charStrip s.data from rfl, charStrip_idem]

theorem mem_userFilteredJokes {m : String} {lines : List String}
    (hm : m ∈ userFilteredJokes lines) :
    m.isEmpty = false ∧ m.startsWith "#" = false ∧ pyStrip m = m := by
  obtain ⟨hmem, hq⟩ := List.mem_filter.mp hm
  obtain ⟨x, _, hx⟩ := List.mem_map.mp hmem
  simp only [Bool.and_eq_true, Bool.not_eq_true'] at hq
  exact ⟨hq.1, hq.2, by rw [← hx, pyStrip_idem]⟩

theorem mem_bundledFilteredJokes {m : String} {lines : List String}
    (hm : m ∈ bundledFilteredJokes lines) :
    m.isEmpty = false ∧ pyStrip m = m := by
  obtain ⟨hmem, hq⟩ := List.mem_filter.mp hm
  obtain ⟨x, _, hx⟩ := List.mem_map.mp hmem
  simp only [Bool.not_eq_true'] at hq
  exact ⟨hq, by rw [← hx, pyStrip_idem]⟩

theorem mem_fallbackJokes {m : String} (hm : m ∈ fallbackJokes) :
    m.isEmpty = false ∧ pyStrip m = m := by
  simp only [fallbackJokes, List.mem_cons, List.not_mem_nil, or_false] at hm
  rcases hm with rfl | rfl | rfl <;> exact ⟨rfl, by decide⟩

theorem mem_userJokesOf {env : JokesEnv} {m : String} (hm : m ∈ userJokesOf env) :
    m.isEmpty = false ∧ m.startsWith "#" = false ∧ pyStrip m = m := by
  cases env with
  | mk user bundled =>
    cases user with
    | ok lines => exact mem_userFilteredJokes hm
    | missing => simp [userJokesOf] at hm
    | readError => simp [userJokesOf] at hm

theorem mem_defaultJokesOf {env : JokesEnv} {m : String} (hm : m ∈ defaultJokesOf env) :
    m.isEmpty = false ∧ pyStrip m = m := by
  cases env with
  | mk user bundled =>
    cases bundled with
    | ok lines => exact mem_bundledFilteredJokes hm
    | missing => simp [defaultJokesOf] at hm
    | readError => simp [defaultJokesOf] at hm

theorem mem_loadJokes {env : JokesEnv} {m : String} (hm : m ∈ loadJokes env) :
    m.isEmpty = false ∧ pyStrip m = m := by
  simp only [loadJokes] at hm
  split at hm
  all_goals split at hm
  · exact mem_fallbackJokes hm
  · rw [List.nil_append] at hm
    exact mem_defaultJokesOf hm
  · exact mem_fallbackJokes hm
  · rcases List.mem_append.mp hm with h | h
    · exact (mem_userJokesOf h).imp_right And.right
    · exact mem_defaultJokesOf h

theorem loadJokes_ne_nil (env : JokesEnv) : loadJokes env ≠ [] := by
  simp only [loadJokes]
  split
  all_goals split
  · decide
  · rename_i hfalse
    intro hc
    rw [hc] at hfalse
    simp at hfalse
  · decide
  · rename_i hfalse
    intro hc
    rw [hc] at hfalse
    simp at hfalse

theorem loadJokes_fallback {env : JokesEnv}
    (h1 : userJokesOf env = []) (h2 : defaultJokesOf env = []) :
    loadJokes env = fallbackJokes := by
  simp [loadJokes, h1, h2]

/-! ### Claim theorems -/

/-- C1: for every `clickFromLocation` call in which the template is not
found (the image file does not exist, or the locate-and-click path
raises), the failure is caught inside the function: `skipCounter`
increases by exactly one, `imgCounter` and `counter` are unchanged, and
the call returns normally — a `sequence` containing such a failed click
still performs all three click attempts, so the enclosing loop
continues with no retry. -/
theorem clickFromLocation_failure_is_one_skip (o : ClickOutcome) (s : SwiperState)
    (h : o ≠ ClickOutcome.success) :
    (clickFromLocation o s).skipCounter = s.skipCounter + 1 ∧
    (clickFromLocation o s).imgCounter = s.imgCounter ∧
    (clickFromLocation o s).counter = s.counter ∧
    (∀ jokes r o2 o3 t, (sequence jokes r o o2 o3 t).1.imgCounter
        + (sequence jokes r o o2 o3 t).1.skipCounter
        = t.imgCounter + t.skipCounter + 3) := by
  cases o with
  | success => exact absurd rfl h
  | fileMissing => exact ⟨rfl, rfl, rfl, fun jokes r o2 o3 t => sequence_sum jokes r _ o2 o3 t⟩
  | raises => exact ⟨rfl, rfl, rfl, fun jokes r o2 o3 t => sequence_sum jokes r _ o2 o3 t⟩

/-- Witness for the C1 theorem at a concrete failing outcome and state. -/
theorem clickFromLocation_failure_is_one_skip_witness :
    ClickOutcome.raises ≠ ClickOutcome.success ∧
    (clickFromLocation ClickOutcome.raises initialState).skipCounter
      = initialState.skipCounter + 1 :=
  ⟨by decide,
    (clickFromLocation_failure_is_one_skip ClickOutcome.raises initialState (by decide)).1⟩

/-- C2: every `sequence` call emits exactly the fixed event list — move to
the default location, click heart, wait, click comment, wait, type the
randomly chosen message, wait, click like, wait — and every completed
sequence recorded in a `looper` trace has exactly that shape. -/
theorem sequence_fixed_order :
    (∀ jokes r o1 o2 o3 s, (sequence jokes r o1 o2 o3 s).2
        = canonicalTrace (randomPunGenerator jokes r)) ∧
    (∀ jokes env fuel s t,
        SessionEvent.seqRun t ∈ (looperAux jokes env fuel s).trace →
        ∃ msg, t = canonicalTrace msg) :=
  ⟨sequence_trace,
   fun jokes env fuel s t ht => looperAux_seq_canonical jokes env fuel s t ht⟩

/-- Witness for the C2 theorem on a concrete two-iteration run. -/
theorem sequence_fixed_order_witness :
    ∃ msg, canonicalTrace "hi" = canonicalTrace msg :=
  sequence_fixed_order.2 ["hi"] oneIterThenInterruptEnv 2 initialState
    (canonicalTrace "hi") (by decide)

/-- C3: for every non-empty jokes list, `randomPunGenerator` returns the
element of the list at the uniformly drawn index (it is exactly
`random.choice`), so the result is a member of the list, and each
position of the list is selected by exactly one of the equally likely
draws `0, ..., length - 1`. -/
theorem randomPunGenerator_uniform_choice (jokes : List String) (r : Nat)
    (h : jokes ≠ []) :
    randomPunGenerator jokes r ∈ jokes ∧
    randomPunGenerator jokes r = jokes.getD (chooseIndex jokes.length r) "" ∧
    ∀ i < jokes.length,
      ((Finset.range jokes.length).filter
        (fun x => chooseIndex jokes.length x = i)).card = 1 := by
  have hne : ¬ jokes.isEmpty = true := by simp [List.isEmpty_iff, h]
  have hlen : 0 < jokes.length := List.length_pos.mpr h
  have hval : randomPunGenerator jokes r = jokes.getD (chooseIndex jokes.length r) "" := by
    rw [randomPunGenerator, if_neg hne]
  refine ⟨?_, hval, ?_⟩
  · rw [hval]
    have hidx : chooseIndex jokes.length r < jokes.length := Nat.mod_lt r hlen
    rw [List.getD_eq_getElem jokes "" hidx]
    exact List.getElem_mem hidx
  · intro i hi
    have hset : (Finset.range jokes.length).filter
        (fun x => chooseIndex jokes.length x = i) = {i} := by
      ext x
      simp only [Finset.mem_filter, Finset.mem_range, Finset.mem_singleton, chooseIndex]
      constructor
      · rintro ⟨hx, hmod⟩
        rwa [Nat.mod_eq_of_lt hx] at hmod
      · rintro rfl
        exact ⟨hi, Nat.mod_eq_of_lt hi⟩
    rw [hset, Finset.card_singleton]

/-- Witness for the C3 theorem on a concrete non-empty list. -/
theorem randomPunGenerator_uniform_choice_witness :
    randomPunGenerator ["a", "b"] 3 ∈ (["a", "b"] : List String) :=
  (randomPunGenerator_uniform_choice ["a", "b"] 3 (by decide)).1

/-- C4: in every statistics report of `logAll`, the reported total equals
`imgCounter + skipCounter`, the success and skip percentages are
`imgCounter/total*100` and `skipCounter/total*100` when the total is
positive and both `0` when the total is `0`, and the `Total Images` log
line equals the sum of the `Completed Images` and `Skipped Images`
lines. -/
theorem logAll_counters_sum (s : SwiperState) :
    (logAll s).total = s.imgCounter + s.skipCounter ∧
    (0 < (logAll s).total →
      (logAll s).successRate = (s.imgCounter : ℚ) / (((logAll s).total : ℤ) : ℚ) * 100 ∧
      (logAll s).skipRate = (s.skipCounter : ℚ) / (((logAll s).total : ℤ) : ℚ) * 100) ∧
    ((logAll s).total = 0 → (logAll s).successRate = 0 ∧ (logAll s).skipRate = 0) ∧
    (logAll s).printTotal = (logAll s).printComplete + (logAll s).printSkip := by
  refine ⟨rfl, ?_, ?_, rfl⟩
  · intro hpos
    have hp : (0 : ℤ) < s.imgCounter + s.skipCounter := hpos
    constructor <;> simp [logAll, hp]
  · intro hzero
    have hz : s.imgCounter + s.skipCounter = 0 := hzero
    constructor <;> simp [logAll, hz]

/-- Witness for the C4 theorem at concrete counter values. -/
theorem logAll_counters_sum_witness :
    (logAll ⟨0, 2, 1⟩).printTotal
      = (logAll ⟨0, 2, 1⟩).printComplete + (logAll ⟨0, 2, 1⟩).printSkip ∧
    0 < (logAll ⟨0, 2, 1⟩).total ∧
    (logAll ⟨0, 2, 1⟩).successRate
      = ((2 : ℤ) : ℚ) / (((logAll ⟨0, 2, 1⟩).total : ℤ) : ℚ) * 100 := by
  have h := logAll_counters_sum ⟨0, 2, 1⟩
  have hpos : 0 < (logAll (⟨0, 2, 1⟩ : SwiperState)).total := by decide
  exact ⟨h.2.2.2, hpos, (h.2.1 hpos).1⟩

/-- C5: when a `KeyboardInterrupt` is raised during iteration `k + 1` of
the main loop (the first `k` iterations having completed), the loop
breaks: exactly `k + 1` iterations start, only `k` click sequences run
to completion (no further iterations of the click sequence run), nothing
escapes the loop, and the program proceeds to the final summary. -/
theorem looper_interrupt_breaks (jokes : List String) (env : ℤ → IterEvent)
    (k fuel : Nat) (os : List ClickOutcome)
    (hcomp : ∀ j : Nat, 1 ≤ j → j ≤ k → (env j).isCompleted = true)
    (henv : env ((k : ℤ) + 1) = .interrupted os)
    (hle : (k : ℤ) + 1 ≤ 200)
    (hf : k + 1 ≤ fuel) :
    countIter (looper jokes env fuel).1.trace = k + 1 ∧
    countSeq (looper jokes env fuel).1.trace = k ∧
    (looper jokes env fuel).1.crashed = false ∧
    (looper jokes env fuel).2
      = some ⟨(looperAux jokes env fuel initialState).state.counter,
              (looperAux jokes env fuel initialState).state.imgCounter,
              (looperAux jokes env fuel initialState).state.skipCounter⟩ ∧
    (looper jokes env fuel).1.state.counter = (k : ℤ) + 1 := by
  have hcomp0 : ∀ j : Nat, 1 ≤ j → j ≤ k →
      (env (initialState.counter + j)).isCompleted = true := by
    intro j h1 h2
    have h3 := hcomp j h1 h2
    have h4 : initialState.counter + (j : ℤ) = (j : ℤ) := by simp [initialState]
    rwa [h4]
  have harg : initialState.counter + (k : ℤ) + 1 = (k : ℤ) + 1 := by simp [initialState]
  have hstopf : (env (initialState.counter + k + 1)).isCompleted = false := by
    rw [harg, henv]
    rfl
  have hle0 : initialState.counter + (k : ℤ) + 1 ≤ 200 := by rw [harg]; exact hle
  obtain ⟨hi, hs, hc, hcount⟩ :=
    looperAux_stops jokes env k fuel initialState hcomp0 hstopf hle0 hf
  have hcrash : (looperAux jokes env fuel initialState).crashed = false := by
    rw [hc, harg, henv]
    rfl
  refine ⟨hi, hs, hcrash, ?_, ?_⟩
  · simp only [looper]
    rw [hcrash]
    rfl
  · rw [harg] at hcount
    exact hcount

/-- Witness for the C5 theorem: interrupt at iteration 2 of a concrete run. -/
theorem looper_interrupt_breaks_witness :
    countIter (looper ["hi"] oneIterThenInterruptEnv 200).1.trace = 1 + 1 :=
  (looper_interrupt_breaks ["hi"] oneIterThenInterruptEnv 1 200 []
    (fun j h1 h2 => by
      have hj : j = 1 := by omega
      subst hj
      decide)
    (by decide) (by decide) (by decide)).1

/-- C6 counterexample: in the session whose first iteration completes and
whose second iteration is interrupted, the statistics log file is opened
twice — once per iteration by the `finally` clause — not exactly once. -/
theorem log_opened_once_counterexample :
    countLog (looperAux ["hi"] oneIterThenInterruptEnv 200 initialState).trace = 2 ∧
    countLog (looperAux ["hi"] oneIterThenInterruptEnv 200 initialState).trace ≠ 1 := by
  constructor <;> decide

/-- C6 amended: during one session the statistics log file is opened
exactly once per loop iteration (the `finally` clause runs `logAll` on
every iteration, including the interrupted one), and every open of the
log file is in append mode, so existing content is never truncated or
overwritten. -/
theorem log_opened_once_per_iteration (jokes : List String) (env : ℤ → IterEvent)
    (fuel : Nat) (s : SwiperState) :
    countLog (looperAux jokes env fuel s).trace
      = countIter (looperAux jokes env fuel s).trace ∧
    logOpensAppendOnly (looperAux jokes env fuel s).trace = true :=
  ⟨looperAux_log_eq_iter jokes env fuel s, looperAux_append_only jokes env fuel s⟩

/-- C7: the counters start at 0; `clickFromLocation` leaves `counter`
unchanged and never decreases `imgCounter` or `skipCounter`; the main
loop never decreases any counter (`logAll` only reads them); hence every
counter stays a non-negative integer throughout any run started from the
initial state. -/
theorem counters_nonneg_and_monotone :
    initialState.counter = 0 ∧ initialState.imgCounter = 0 ∧
    initialState.skipCounter = 0 ∧
    (∀ o s, (clickFromLocation o s).counter = s.counter ∧
      s.imgCounter ≤ (clickFromLocation o s).imgCounter ∧
      s.skipCounter ≤ (clickFromLocation o s).skipCounter) ∧
    (∀ jokes env fuel s,
      s.counter ≤ (looperAux jokes env fuel s).state.counter ∧
      s.imgCounter ≤ (looperAux jokes env fuel s).state.imgCounter ∧
      s.skipCounter ≤ (looperAux jokes env fuel s).state.skipCounter) ∧
    (∀ jokes env fuel,
      0 ≤ (looperAux jokes env fuel initialState).state.counter ∧
      0 ≤ (looperAux jokes env fuel initialState).state.imgCounter ∧
      0 ≤ (looperAux jokes env fuel initialState).state.skipCounter) := by
  refine ⟨rfl, rfl, rfl, ?_, ?_, ?_⟩
  · intro o s
    exact ⟨clickFromLocation_counter o s, (clickFromLocation_monotone o s).1,
      (clickFromLocation_monotone o s).2⟩
  · intro jokes env fuel s
    exact looperAux_monotone jokes env fuel s
  · intro jokes env fuel
    exact looperAux_monotone jokes env fuel initialState

/-- C8: the main loop is bounded: from the initial state it starts at most
200 iterations whatever the environment does, the final `counter` equals
the starting counter plus the number of iterations (the counter is
incremented exactly once per iteration), and with enough fuel and no
interrupt it performs exactly 200 iterations — the `counter < 200` guard,
not the fuel, is what stops it. -/
theorem looper_bounded_200 (jokes : List String) (env : ℤ → IterEvent) (fuel : Nat) :
    countIter (looperAux jokes env fuel initialState).trace ≤ 200 ∧
    (looperAux jokes env fuel initialState).state.counter
      = initialState.counter + countIter (looperAux jokes env fuel initialState).trace ∧
    ((∀ c : ℤ, (env c).isCompleted = true) → 200 ≤ fuel →
      countIter (looperAux jokes env fuel initialState).trace = 200) := by
  refine ⟨?_, looperAux_counter_eq jokes env fuel initialState, ?_⟩
  · have h := looperAux_countIter_le jokes env fuel initialState
    simpa [initialState] using h
  · intro hall hf
    have h := looperAux_all_completed jokes env hall fuel initialState
      (by simp [initialState]) (by simpa [initialState] using hf)
    simpa [initialState] using h

/-- Witness for the C8 theorem: a full no-interrupt run of 200 iterations. -/
theorem looper_bounded_200_witness :
    countIter (looperAux ["hi"] allSuccessEnv 200 initialState).trace = 200 :=
  (looper_bounded_200 ["hi"] allSuccessEnv 200).2.2 (fun _ => rfl) (le_refl 200)

/-- C9: `loadJokes` always returns a non-empty list — the three-message
fallback is used when neither file contributed anything — and every
returned message is a stripped (`strip` is a no-op on it), non-empty
line, which moreover does not start with `#` when it came from the user
custom-jokes file. -/
theorem loadJokes_nonempty_stripped (env : JokesEnv) :
    loadJokes env ≠ [] ∧
    (∀ m ∈ loadJokes env, m.isEmpty = false ∧ pyStrip m = m) ∧
    (∀ m ∈ userJokesOf env,
      m.startsWith "#" = false ∧ m.isEmpty = false ∧ pyStrip m = m) ∧
    (userJokesOf env = [] → defaultJokesOf env = [] →
      loadJokes env = fallbackJokes) := by
  refine ⟨loadJokes_ne_nil env, ?_, ?_, fun h1 h2 => loadJokes_fallback h1 h2⟩
  · intro m hm
    exact mem_loadJokes hm
  · intro m hm
    obtain ⟨h1, h2, h3⟩ := mem_userJokesOf hm
    exact ⟨h2, h1, h3⟩

/-- Witness for the C9 theorem: both files missing yields the fallback, and
a concrete fallback element is a stripped non-empty message. -/
theorem loadJokes_nonempty_stripped_witness :
    loadJokes ⟨FileRead.missing, FileRead.missing⟩ = fallbackJokes ∧
    ("Hey there! 😊".isEmpty = false ∧ pyStrip "Hey there! 😊" = "Hey there! 😊") :=
  ⟨(loadJokes_nonempty_stripped ⟨FileRead.missing, FileRead.missing⟩).2.2.2 rfl rfl,
   (loadJokes_nonempty_stripped ⟨FileRead.missing, FileRead.missing⟩).2.1
     "Hey there! 😊" (by decide)⟩

/-- C10: on the empty jokes list `randomPunGenerator` does not raise: it
returns the fixed string `"No jokes available"` for every random draw. -/
theorem randomPunGenerator_empty (r : Nat) :
    randomPunGenerator [] r = "No jokes available" := rfl

end AutoSwiper
